import Mathlib

set_option maxHeartbeats 1000000

namespace AtomModel

/-- Python object values, as an abstract datatype. `pyNone` is CPython's `Py_None`
singleton. `nullObject` is `NullObject` from `null_object.h`; that header is not part
of the given sources, so it is Modelled from the spec: the canonical "no value"
placeholder, "a concrete null-like value, not an absent slot", a sentinel distinct
from ordinary values. `obj n` stands for any other Python object. -/
inductive Value where
  | pyNone : Value
  | nullObject : Value
  | obj : Nat → Value
deriving DecidableEq, Repr

/-- A member descriptor (`Member` from `member.h`, consumed as an external
collaborator): up to four optional handlers. A handler is an external callable that
either returns a value or raises (`none` = raised). The descriptor, instance and name
arguments the C code passes to a handler are fixed for the duration of one attribute
access, so each handler is modelled as a function of the varying arguments only
(old value and candidate); reentrant mutation of the instance by a handler is out of
scope per the spec's concurrency model. -/
structure Member where
  default_handler : Option (Option Value)
  validate_handler : Option (Value → Value → Option Value)
  post_validate_handler : Option (Value → Value → Option Value)
  post_setattr_handler : Option (Value → Value → Option Unit)

/-- Observable external events: one event per handler invocation, recording the
member name and the (old, candidate) arguments the handler received. -/
inductive Event where
  | evDefault (name : String) : Event
  | evValidate (name : String) (old cand : Value) : Event
  | evPostValidate (name : String) (old cand : Value) : Event
  | evPostSetattr (name : String) (old cand : Value) : Event
deriving DecidableEq, Repr

/-- Modelled from the spec: the per-class schema (`ClassMap` from `class_map.h`,
not among the given sources): an immutable table mapping member name to
(descriptor, slot index). Indices are positions in the list. -/
structure ClassMap where
  members : List (String × Member)

/-- Modelled from the spec: `ClassSchema.member_count() -> integer`. -/
def ClassMap_MemberCount (cm : ClassMap) : Nat :=
  cm.members.length

def lookupMemberAux : List (String × Member) → String → Nat → Option (Member × Nat)
  | [], _, _ => none
  | (n, m) :: rest, name, i =>
      if n = name then some (m, i) else lookupMemberAux rest name (i + 1)

/-- Modelled from the spec: `ClassSchema.lookup(name) -> (descriptor, index) |
not_found`. -/
def ClassMap_LookupMember (cm : ClassMap) (name : String) : Option (Member × Nat) :=
  lookupMemberAux cm.members name 0

/-- The slotted object (`Atom` from `atom.h`): a counted reference to its class map
plus a slot array. A slot is `none` when the C slot pointer is null (absent) and
`some v` when it holds an owned reference to `v`. `class_map = none` models the
state after `Atom_clear` has severed the schema reference. -/
structure Atom where
  class_map : Option ClassMap
  slots : List (Option Value)

/-- A reference reported to the GC visitor or released: either a slot value or the
schema reference. -/
inductive Ref where
  | value : Value → Ref
  | schema : ClassMap → Ref

/-- Outcome of `Atom_getattro`: a returned value, a propagated error (the C function
returns 0 with an exception set), or delegation to `PyObject_GenericGetAttr`. -/
inductive GetResult where
  | value : Value → GetResult
  | error : GetResult
  | fallback : GetResult
deriving DecidableEq, Repr

/-- Outcome of `Atom_setattro`: 0 from the schema-backed branch, or delegation to
`PyObject_GenericSetAttr` which succeeds (0) or fails (-1). -/
inductive SetOutcome where
  | ok : SetOutcome
  | fallbackOk : SetOutcome
  | fallbackErr : SetOutcome
deriving DecidableEq, Repr

/-- Full effect of one `Atom_setattro` call: its return outcome, the instance state
afterwards, the owned references the call released (Py_DECREF / Py_CLEAR of a slot
occupant), and the handler invocations it performed. -/
structure SetEffect where
  outcome : SetOutcome
  atom : Atom
  released : List Value
  events : List Event

/-- Embedding of `do_validate` (atom.cpp lines 128-172): start from the candidate
`val`; if a validate handler exists, call it with (old, candidate) and replace the
candidate by its result, propagating failure; then likewise for the post-validate
handler. Both stages receive the same `old`. Returns the final value (or `none` on
handler failure) together with the handler-invocation trace. -/
def do_validate (member : Member) (name : String) (old : Value) (val : Value) :
    Option Value × List Event :=
  match member.validate_handler with
  | none =>
    match member.post_validate_handler with
    | none => (some val, [])
    | some g =>
      match g old val with
      | none => (none, [Event.evPostValidate name old val])
      | some r => (some r, [Event.evPostValidate name old val])
  | some f =>
    match f old val with
    | none => (none, [Event.evValidate name old val])
    | some r1 =>
      match member.post_validate_handler with
      | none => (some r1, [Event.evValidate name old val])
      | some g =>
        match g old r1 with
        | none => (none, [Event.evValidate name old val, Event.evPostValidate name old r1])
        | some r2 => (some r2, [Event.evValidate name old val, Event.evPostValidate name old r1])

/-- Embedding of `do_default` (atom.cpp lines 175-195): the candidate starts as
`Py_None` (`newref( Py_None )`); if a default handler exists, it is invoked and its
result replaces the candidate, its failure propagating. The candidate is then passed
through `do_validate` with `NullObject` as the old value. -/
def do_default (member : Member) (name : String) : Option Value × List Event :=
  match member.default_handler with
  | none => do_validate member name Value.nullObject Value.pyNone
  | some h =>
    match h with
    | none => (none, [Event.evDefault name])
    | some v =>
      let r := do_validate member name Value.nullObject v
      (r.1, Event.evDefault name :: r.2)

/-- Embedding of `do_post_setattr` (atom.cpp lines 198-224): invoke the post-setattr
handler, if any, with (old, new); a failure propagates. Present in the source but
called from nowhere in atom.cpp. -/
def do_post_setattr (member : Member) (name : String) (old val : Value) :
    Option Unit × List Event :=
  match member.post_setattr_handler with
  | none => (some (), [])
  | some h =>
    match h old val with
    | none => (none, [Event.evPostSetattr name old val])
    | some _ => (some (), [Event.evPostSetattr name old val])

/-- Embedding of `Atom_getattro` (atom.cpp lines 227-248): look the name up in the
class map; if found and the slot is present, return a new reference to its value
unchanged; if found and absent, run `do_default`, returning its error on failure
(slot untouched) and otherwise storing its result in the slot and returning it; if
not found, delegate to the generic fallback attribute lookup. The `class_map = none`
case cannot arise on a live instance (construction always attaches a map). -/
def Atom_getattro (a : Atom) (name : String) : GetResult × Atom × List Event :=
  match a.class_map with
  | none => (GetResult.fallback, a, [])
  | some cm =>
    match ClassMap_LookupMember cm name with
    | none => (GetResult.fallback, a, [])
    | some (member, index) =>
      match a.slots.getD index none with
      | some v => (GetResult.value v, a, [])
      | none =>
        match do_default member name with
        | (none, evs) => (GetResult.error, a, evs)
        | (some v, evs) =>
          (GetResult.value v, { a with slots := a.slots.set index (some v) }, evs)

/-- Embedding of `Atom_setattro` (atom.cpp lines 251-263): look the name up in the
class map; if found, overwrite the slot with `xnewref( value )` (a null `value`
deletes the attribute) and return 0 — the source overwrites the slot pointer without
releasing a previous occupant, so `released` is empty, and it invokes no handler, so
`events` is empty; if not found, delegate to `PyObject_GenericSetAttr`, an external
collaborator modelled by the `genericSet` parameter deciding success. -/
def Atom_setattro (genericSet : String → Option Value → Bool)
    (a : Atom) (name : String) (value : Option Value) : SetEffect :=
  match a.class_map with
  | none =>
    { outcome := if genericSet name value then SetOutcome.fallbackOk else SetOutcome.fallbackErr
      atom := a, released := [], events := [] }
  | some cm =>
    match ClassMap_LookupMember cm name with
    | none =>
      { outcome := if genericSet name value then SetOutcome.fallbackOk else SetOutcome.fallbackErr
        atom := a, released := [], events := [] }
    | some (_, index) =>
      { outcome := SetOutcome.ok
        atom := { a with slots := a.slots.set index value }
        released := []
        events := [] }

/-- One pass of the `Py_CLEAR` loop of `Atom_clear` over a slot prefix: returns the
cleared slots and the occupants released, in increasing index order. -/
def clearSlots : List (Option Value) → List (Option Value) × List Value
  | [] => ([], [])
  | s :: rest =>
    let r := clearSlots rest
    (none :: r.1, s.toList ++ r.2)

/-- Embedding of `Atom_clear` (atom.cpp lines 96-104): `Py_CLEAR` each of the first
`member_count` slots in increasing index order, then `Py_CLEAR` the class-map
reference. Returns the new state and the released references in release order. With
the map already severed the C loop bound would read through a null map pointer; that
state is only reached after a first clear has emptied everything, so it is modelled
as releasing nothing. -/
def Atom_clear (a : Atom) : Atom × List Ref :=
  match a.class_map with
  | none => (a, [])
  | some cm =>
    let r := clearSlots (a.slots.take (ClassMap_MemberCount cm))
    ({ class_map := none, slots := r.1 ++ a.slots.drop (ClassMap_MemberCount cm) },
     r.2.map Ref.value ++ [Ref.schema cm])

/-- Embedding of `Atom_traverse` (atom.cpp lines 107-116): `Py_VISIT` each of the
first `member_count` slots (visiting skips absent ones) and then the class-map
reference. The function is read-only — it only reports references, so it returns the
visit list and no state. After `Atom_clear` the map is severed; every `Py_VISIT`
then skips a null pointer, modelled as reporting nothing. -/
def Atom_traverse (a : Atom) : List Ref :=
  match a.class_map with
  | none => []
  | some cm =>
    ((a.slots.take (ClassMap_MemberCount cm)).filterMap id).map Ref.value
      ++ [Ref.schema cm]

/-- The keyword-argument loop of `Atom_init` (atom.cpp lines 79-91): apply each
(name, value) pair via `PyObject_SetAttr`, i.e. through `Atom_setattro`, in mapping
order; the first pair whose set returns -1 stops the loop and the whole init returns
-1 (`false`), leaving the state as it stood at the failure. -/
def Atom_initPairs (genericSet : String → Option Value → Bool) :
    Atom → List (String × Value) → Bool × Atom
  | a, [] => (true, a)
  | a, (k, v) :: rest =>
    let e := Atom_setattro genericSet a k (some v)
    match e.outcome with
    | SetOutcome.fallbackErr => (false, e.atom)
    | _ => Atom_initPairs genericSet e.atom rest

/-- Embedding of `Atom_init` (atom.cpp lines 72-93): any positional argument is
rejected with a TypeError (`false`) before any side effect; otherwise the keyword
mapping is applied pair by pair in mapping order. -/
def Atom_init (genericSet : String → Option Value → Bool)
    (a : Atom) (args : List Value) (kwargs : List (String × Value)) : Bool × Atom :=
  if 0 < args.length then (false, a)
  else Atom_initPairs genericSet a kwargs

/-- Embedding of `Atom_sizeof` (atom.cpp lines 266-271), with the base size as a
parameter: base size plus one pointer-sized entry per declared member. -/
def Atom_sizeof (basicsize slotsize : Nat) (a : Atom) : Nat :=
  basicsize + slotsize * (match a.class_map with
    | none => 0
    | some cm => ClassMap_MemberCount cm)

/-- Number of default-handler invocations recorded in a trace. -/
def countDefaults (evs : List Event) : Nat :=
  (evs.filter (fun e => match e with | Event.evDefault _ => true | _ => false)).length

theorem countDefaults_do_validate (m : Member) (nm : String) (o v : Value) :
    countDefaults (do_validate m nm o v).2 = 0 := by
  unfold do_validate
  repeat' split
  all_goals simp [countDefaults]

theorem countDefaults_do_default (m : Member) (nm : String) :
    countDefaults (do_default m nm).2 ≤ 1 := by
  unfold do_default
  rcases hd : m.default_handler with _ | _ | v
  · rw [countDefaults_do_validate]
    exact Nat.zero_le 1
  · simp [countDefaults]
  · have h := countDefaults_do_validate m nm Value.nullObject v
    simp only [countDefaults, List.filter] at h ⊢
    simp [h]

theorem getD_set_self : ∀ (l : List (Option Value)) (i : Nat) (v : Option Value),
    i < l.length → (l.set i v).getD i none = v
  | [], i, _, h => absurd h (Nat.not_lt_zero i)
  | _ :: _, 0, _, _ => rfl
  | _ :: l, i + 1, v, h => getD_set_self l i v (Nat.lt_of_succ_lt_succ h)

/-- Per-claim fixture: a member whose default handler returns `obj 7`, no
validators. -/
def memberC1 : Member := ⟨some (some (Value.obj 7)), none, none, none⟩

def cmC1 : ClassMap := ⟨[("a", memberC1)]⟩

def atomC1 : Atom := ⟨some cmC1, [none]⟩

/-- C1: for a schema-backed member whose slot is absent, the first read runs default
production and caches its result in the slot; a second read returns the identical
cached value with no further handler invocations; the default handler fires at most
once per slot while the slot stays present. -/
theorem C1_unset_read_caches_and_default_fires_once
    (a : Atom) (cm : ClassMap) (name : String) (member : Member) (index : Nat)
    (v : Value) (evs : List Event)
    (hcm : a.class_map = some cm)
    (hlook : ClassMap_LookupMember cm name = some (member, index))
    (hlen : index < a.slots.length)
    (habs : a.slots.getD index none = none)
    (hdef : do_default member name = (some v, evs)) :
    Atom_getattro a name =
        (GetResult.value v, { a with slots := a.slots.set index (some v) }, evs) ∧
    Atom_getattro { a with slots := a.slots.set index (some v) } name =
        (GetResult.value v, { a with slots := a.slots.set index (some v) }, []) ∧
    countDefaults evs ≤ 1 := by
  have hset := getD_set_self a.slots index (some v) hlen
  simp only [List.getD_eq_getElem?_getD] at habs hset
  refine ⟨?_, ?_, ?_⟩
  · simp [Atom_getattro, hcm, hlook, habs, hdef]
  · simp [Atom_getattro, hcm, hlook, hset]
  · have h := countDefaults_do_default member name
    rw [hdef] at h
    exact h

/-- Witness for C1 at a concrete one-member class. -/
theorem C1_witness :
    do_default memberC1 "a" = (some (Value.obj 7), [Event.evDefault "a"]) ∧
    (Atom_getattro atomC1 "a" =
        (GetResult.value (Value.obj 7),
         { atomC1 with slots := atomC1.slots.set 0 (some (Value.obj 7)) },
         [Event.evDefault "a"]) ∧
     Atom_getattro { atomC1 with slots := atomC1.slots.set 0 (some (Value.obj 7)) } "a" =
        (GetResult.value (Value.obj 7),
         { atomC1 with slots := atomC1.slots.set 0 (some (Value.obj 7)) }, []) ∧
     countDefaults [Event.evDefault "a"] ≤ 1) :=
  ⟨rfl, C1_unset_read_caches_and_default_fires_once atomC1 cmC1 "a" memberC1 0
      (Value.obj 7) [Event.evDefault "a"] rfl rfl (Nat.zero_lt_one) rfl rfl⟩

/-- Per-claim fixture: a member with validate, post-validate and post-setattr
handlers, all of which would visibly transform any value passed through them. -/
def memberC2 : Member :=
  ⟨none,
   some (fun _ _ => some (Value.obj 100)),
   some (fun _ _ => some (Value.obj 200)),
   some (fun _ _ => some ())⟩

def cmC2 : ClassMap := ⟨[("a", memberC2)]⟩

def atomC2 : Atom := ⟨some cmC2, [some (Value.obj 5)]⟩

/-- C2: writing a value to a schema-backed member and then reading the member back
returns exactly that value, unmodified; the write performs no handler invocation
(empty event trace) — it is a trusted store that bypasses validate, post-validate
and post-setattr. -/
theorem C2_write_then_read_returns_value_unvalidated
    (gs : String → Option Value → Bool) (a : Atom) (cm : ClassMap) (name : String)
    (member : Member) (index : Nat) (v : Value)
    (hcm : a.class_map = some cm)
    (hlook : ClassMap_LookupMember cm name = some (member, index))
    (hlen : index < a.slots.length) :
    Atom_setattro gs a name (some v) =
      { outcome := SetOutcome.ok,
        atom := { a with slots := a.slots.set index (some v) },
        released := [], events := [] } ∧
    Atom_getattro { a with slots := a.slots.set index (some v) } name =
      (GetResult.value v, { a with slots := a.slots.set index (some v) }, []) := by
  have hset := getD_set_self a.slots index (some v) hlen
  simp only [List.getD_eq_getElem?_getD] at hset
  refine ⟨?_, ?_⟩
  · simp [Atom_setattro, hcm, hlook]
  · simp [Atom_getattro, hcm, hlook, hset]

/-- Witness for C2: writing `obj 9` over an occupied slot of a member whose
validators would have replaced the value; the read returns `obj 9` untouched. -/
theorem C2_witness :
    Atom_setattro (fun _ _ => true) atomC2 "a" (some (Value.obj 9)) =
      { outcome := SetOutcome.ok,
        atom := { atomC2 with slots := atomC2.slots.set 0 (some (Value.obj 9)) },
        released := [], events := [] } ∧
    Atom_getattro { atomC2 with slots := atomC2.slots.set 0 (some (Value.obj 9)) } "a" =
      (GetResult.value (Value.obj 9),
       { atomC2 with slots := atomC2.slots.set 0 (some (Value.obj 9)) }, []) :=
  C2_write_then_read_returns_value_unvalidated (fun _ _ => true) atomC2 cmC2 "a"
    memberC2 0 (Value.obj 9) rfl rfl Nat.zero_lt_one

/-- Per-claim fixture: default handler produces `obj 1`; the validate handler maps
any candidate to `obj 2`; the post-validate handler maps any candidate to `obj 3`. -/
def memberC3 : Member :=
  ⟨some (some (Value.obj 1)),
   some (fun _ _ => some (Value.obj 2)),
   some (fun _ _ => some (Value.obj 3)),
   none⟩

def cmC3 : ClassMap := ⟨[("a", memberC3)]⟩

def atomC3 : Atom := ⟨some cmC3, [none]⟩

/-- C3: during default production, the validate handler runs first on the candidate,
the post-validate handler runs second on the validate stage's output, and the value
cached in the slot is the post-validate handler's output; a stage that is absent
passes its candidate through unchanged. -/
theorem C3_validate_before_post_validate
    (member : Member) (name : String)
    (f g : Value → Value → Option Value) (c v1 v2 : Value)
    (a : Atom) (cm : ClassMap) (index : Nat)
    (hd : member.default_handler = some (some c))
    (hf : member.validate_handler = some f)
    (hg : member.post_validate_handler = some g)
    (hfv : f Value.nullObject c = some v1)
    (hgv : g Value.nullObject v1 = some v2)
    (hcm : a.class_map = some cm)
    (hlook : ClassMap_LookupMember cm name = some (member, index))
    (habs : a.slots.getD index none = none) :
    do_default member name =
      (some v2, [Event.evDefault name,
                 Event.evValidate name Value.nullObject c,
                 Event.evPostValidate name Value.nullObject v1]) ∧
    Atom_getattro a name =
      (GetResult.value v2, { a with slots := a.slots.set index (some v2) },
       [Event.evDefault name, Event.evValidate name Value.nullObject c,
        Event.evPostValidate name Value.nullObject v1]) ∧
    (∀ (m : Member) (old cand : Value), m.validate_handler = none →
        m.post_validate_handler = none →
        do_validate m name old cand = (some cand, [])) ∧
    (∀ (m : Member) (g2 : Value → Value → Option Value) (old cand r : Value),
        m.validate_handler = none → m.post_validate_handler = some g2 →
        g2 old cand = some r →
        do_validate m name old cand = (some r, [Event.evPostValidate name old cand])) ∧
    (∀ (m : Member) (f2 : Value → Value → Option Value) (old cand r : Value),
        m.validate_handler = some f2 → m.post_validate_handler = none →
        f2 old cand = some r →
        do_validate m name old cand = (some r, [Event.evValidate name old cand])) := by
  have h1 : do_default member name =
      (some v2, [Event.evDefault name,
                 Event.evValidate name Value.nullObject c,
                 Event.evPostValidate name Value.nullObject v1]) := by
    simp [do_default, do_validate, hd, hf, hg, hfv, hgv]
  simp only [List.getD_eq_getElem?_getD] at habs
  refine ⟨h1, ?_, ?_, ?_, ?_⟩
  · simp [Atom_getattro, hcm, hlook, habs, h1]
  · intro m old cand hm1 hm2
    simp [do_validate, hm1, hm2]
  · intro m g2 old cand r hm1 hm2 hr
    simp [do_validate, hm1, hm2, hr]
  · intro m f2 old cand r hm1 hm2 hr
    simp [do_validate, hm1, hm2, hr]

/-- Witness for C3 at a concrete member with both handlers. -/
theorem C3_witness :
    memberC3.default_handler = some (some (Value.obj 1)) ∧
    do_default memberC3 "a" =
      (some (Value.obj 3), [Event.evDefault "a",
                            Event.evValidate "a" Value.nullObject (Value.obj 1),
                            Event.evPostValidate "a" Value.nullObject (Value.obj 2)]) ∧
    Atom_getattro atomC3 "a" =
      (GetResult.value (Value.obj 3),
       { atomC3 with slots := atomC3.slots.set 0 (some (Value.obj 3)) },
       [Event.evDefault "a", Event.evValidate "a" Value.nullObject (Value.obj 1),
        Event.evPostValidate "a" Value.nullObject (Value.obj 2)]) :=
  ⟨rfl,
   (C3_validate_before_post_validate memberC3 "a"
      (fun _ _ => some (Value.obj 2)) (fun _ _ => some (Value.obj 3))
      (Value.obj 1) (Value.obj 2) (Value.obj 3) atomC3 cmC3 0
      rfl rfl rfl rfl rfl rfl rfl rfl).1,
   (C3_validate_before_post_validate memberC3 "a"
      (fun _ _ => some (Value.obj 2)) (fun _ _ => some (Value.obj 3))
      (Value.obj 1) (Value.obj 2) (Value.obj 3) atomC3 cmC3 0
      rfl rfl rfl rfl rfl rfl rfl rfl).2.1⟩

/-- Per-claim fixture: a member whose validate handler always raises. -/
def memberC4 : Member := ⟨none, some (fun _ _ => none), none, none⟩

def cmC4 : ClassMap := ⟨[("a", memberC4)]⟩

def atomC4 : Atom := ⟨some cmC4, [none]⟩

/-- C4: when default production fails (any of its handlers raises), the read returns
the error, the slot remains absent and the instance is unchanged, and a later read of
the same member re-attempts default production (it performs the same handler
invocations again rather than finding a cached value). -/
theorem C4_failed_default_leaves_slot_absent
    (a : Atom) (cm : ClassMap) (name : String) (member : Member) (index : Nat)
    (evs : List Event)
    (hcm : a.class_map = some cm)
    (hlook : ClassMap_LookupMember cm name = some (member, index))
    (habs : a.slots.getD index none = none)
    (hfail : do_default member name = (none, evs)) :
    Atom_getattro a name = (GetResult.error, a, evs) ∧
    (Atom_getattro a name).2.1.slots.getD index none = none ∧
    Atom_getattro (Atom_getattro a name).2.1 name = (GetResult.error, a, evs) := by
  have habs' := habs
  simp only [List.getD_eq_getElem?_getD] at habs'
  have h1 : Atom_getattro a name = (GetResult.error, a, evs) := by
    simp [Atom_getattro, hcm, hlook, habs', hfail]
  refine ⟨h1, ?_, ?_⟩
  · rw [h1]
    exact habs
  · rw [h1]
    exact h1

/-- Witness for C4: the validate handler raises during default production; the slot
stays absent and a second read raises again through the same handler call. -/
theorem C4_witness :
    do_default memberC4 "a" = (none, [Event.evValidate "a" Value.nullObject Value.pyNone]) ∧
    Atom_getattro atomC4 "a" =
      (GetResult.error, atomC4, [Event.evValidate "a" Value.nullObject Value.pyNone]) ∧
    (Atom_getattro atomC4 "a").2.1.slots.getD 0 none = none ∧
    Atom_getattro (Atom_getattro atomC4 "a").2.1 "a" =
      (GetResult.error, atomC4, [Event.evValidate "a" Value.nullObject Value.pyNone]) :=
  ⟨rfl,
   (C4_failed_default_leaves_slot_absent atomC4 cmC4 "a" memberC4 0
      [Event.evValidate "a" Value.nullObject Value.pyNone] rfl rfl rfl rfl).1,
   (C4_failed_default_leaves_slot_absent atomC4 cmC4 "a" memberC4 0
      [Event.evValidate "a" Value.nullObject Value.pyNone] rfl rfl rfl rfl).2.1,
   (C4_failed_default_leaves_slot_absent atomC4 cmC4 "a" memberC4 0
      [Event.evValidate "a" Value.nullObject Value.pyNone] rfl rfl rfl rfl).2.2⟩

theorem Atom_setattro_fallbackErr_atom (gs : String → Option Value → Bool)
    (a : Atom) (k : String) (v : Option Value)
    (h : (Atom_setattro gs a k v).outcome = SetOutcome.fallbackErr) :
    (Atom_setattro gs a k v).atom = a := by
  rcases hcm : a.class_map with _ | cm
  · simp [Atom_setattro, hcm]
  · rcases hl : ClassMap_LookupMember cm k with _ | ⟨m, i⟩
    · simp [Atom_setattro, hcm, hl]
    · simp [Atom_setattro, hcm, hl] at h

theorem Atom_initPairs_append (gs : String → Option Value → Bool) :
    ∀ (kw1 : List (String × Value)) (a a1 : Atom) (kw2 : List (String × Value)),
      Atom_initPairs gs a kw1 = (true, a1) →
      Atom_initPairs gs a (kw1 ++ kw2) = Atom_initPairs gs a1 kw2
  | [], a, a1, kw2, h => by
      simp only [Atom_initPairs] at h
      cases h
      rfl
  | (k, v) :: rest, a, a1, kw2, h => by
      simp only [Atom_initPairs, List.cons_append] at h ⊢
      rcases ho : (Atom_setattro gs a k (some v)).outcome with _ | _ | _
      · rw [ho] at h
        exact Atom_initPairs_append gs rest _ a1 kw2 h
      · rw [ho] at h
        exact Atom_initPairs_append gs rest _ a1 kw2 h
      · rw [ho] at h
        simp at h

/-- Per-claim fixture for C5. -/
def memberC5 : Member := ⟨none, none, none, none⟩

def cmC5 : ClassMap := ⟨[("a", memberC5)]⟩

def atomC5 : Atom := ⟨some cmC5, [none]⟩

def gsC5 : String → Option Value → Bool := fun _ _ => false

def a1C5 : Atom := ⟨some cmC5, [some (Value.obj 1)]⟩

/-- C5: initialization rejects any positional argument before any attribute is set,
and otherwise applies the keyword pairs through the standard write path in mapping
order; the first failing pair aborts the remaining pairs and propagates its error,
while already-applied pairs stay applied (no rollback). -/
theorem C5_positional_rejected_first_failure_aborts
    (gs : String → Option Value → Bool) (a a1 : Atom)
    (kw1 kw2 : List (String × Value)) (k : String) (v : Value)
    (hpre : Atom_initPairs gs a kw1 = (true, a1))
    (hfail : (Atom_setattro gs a1 k (some v)).outcome = SetOutcome.fallbackErr) :
    (∀ (args : List Value) (kw : List (String × Value)),
        args ≠ [] → Atom_init gs a args kw = (false, a)) ∧
    Atom_init gs a [] (kw1 ++ (k, v) :: kw2) = (false, a1) := by
  constructor
  · intro args kw hargs
    unfold Atom_init
    rw [if_pos (List.length_pos.mpr hargs)]
  · unfold Atom_init
    rw [if_neg (by simp)]
    rw [Atom_initPairs_append gs kw1 a a1 ((k, v) :: kw2) hpre]
    simp only [Atom_initPairs]
    rw [hfail, Atom_setattro_fallbackErr_atom gs a1 k (some v) hfail]

/-- Witness for C5: pair ("a", obj 1) applies to the slot, then pair ("zz", obj 2)
hits the fallback store, which rejects it; "a" stays set, the error propagates, and
a positional argument is rejected with the state untouched. -/
theorem C5_witness :
    Atom_initPairs gsC5 atomC5 [("a", Value.obj 1)] = (true, a1C5) ∧
    (Atom_setattro gsC5 a1C5 "zz" (some (Value.obj 2))).outcome = SetOutcome.fallbackErr ∧
    Atom_init gsC5 atomC5 [] ([("a", Value.obj 1)] ++ ("zz", Value.obj 2) :: []) =
      (false, a1C5) ∧
    Atom_init gsC5 atomC5 [Value.pyNone] [("a", Value.obj 1)] = (false, atomC5) :=
  ⟨rfl, rfl,
   (C5_positional_rejected_first_failure_aborts gsC5 atomC5 a1C5
      [("a", Value.obj 1)] [] "zz" (Value.obj 2) rfl rfl).2,
   (C5_positional_rejected_first_failure_aborts gsC5 atomC5 a1C5
      [("a", Value.obj 1)] [] "zz" (Value.obj 2) rfl rfl).1
      [Value.pyNone] [("a", Value.obj 1)] (by simp)⟩

/-- Per-claim fixture for C6: a one-member class whose slot already holds `obj 1`. -/
def memberC6 : Member := ⟨none, none, none, none⟩

def cmC6 : ClassMap := ⟨[("a", memberC6)]⟩

def atomC6 : Atom := ⟨some cmC6, [some (Value.obj 1)]⟩

/-- C6: overwriting an occupied slot. The source (`Atom_setattro`, atom.cpp line
258) stores `xnewref( value )` over the old slot pointer without any `Py_DECREF` or
`Py_CLEAR` of the previous occupant, so the write releases nothing even though the
previous occupant `obj 1` is removed from the slot: its owned reference is leaked,
contradicting the documented "releasing any previous occupant". -/
theorem C6_overwrite_releases_nothing :
    (Atom_setattro (fun _ _ => true) atomC6 "a" (some (Value.obj 2))).released = [] ∧
    (Atom_setattro (fun _ _ => true) atomC6 "a" (some (Value.obj 2))).atom.slots =
      [some (Value.obj 2)] ∧
    atomC6.slots = [some (Value.obj 1)] :=
  ⟨rfl, rfl, rfl⟩

theorem clearSlots_fst : ∀ (l : List (Option Value)),
    (clearSlots l).1 = l.map (fun _ => none)
  | [] => rfl
  | s :: rest => by simp [clearSlots, clearSlots_fst rest]

theorem clearSlots_snd : ∀ (l : List (Option Value)),
    (clearSlots l).2 = l.filterMap id
  | [] => rfl
  | s :: rest => by
      cases s <;> simp [clearSlots, clearSlots_snd rest]

theorem getD_map_none : ∀ (l : List (Option Value)) (i : Nat),
    (l.map (fun _ => (none : Option Value))).getD i none = none
  | [], _ => rfl
  | _ :: _, 0 => rfl
  | _ :: l, i + 1 => getD_map_none l i

/-- Per-claim fixture for C7: two members, first slot present, second absent. -/
def memberC7 : Member := ⟨none, none, none, none⟩

def cmC7 : ClassMap := ⟨[("a", memberC7), ("b", memberC7)]⟩

def atomC7 : Atom := ⟨some cmC7, [some (Value.obj 4), none]⟩

/-- C7: before clear, traverse reports to the visitor exactly the present slot
values (in index order) plus the schema reference and nothing else; traverse is a
pure read-out of the state. After clear, a subsequent traverse reports no
references. -/
theorem C7_traverse_exactly_present_slots_plus_schema
    (a : Atom) (cm : ClassMap)
    (hcm : a.class_map = some cm)
    (hlen : a.slots.length = ClassMap_MemberCount cm) :
    Atom_traverse a = ((a.slots.filterMap id).map Ref.value) ++ [Ref.schema cm] ∧
    Atom_traverse (Atom_clear a).1 = [] := by
  constructor
  · simp [Atom_traverse, hcm, ← hlen, List.take_length]
  · have hnone : (Atom_clear a).1.class_map = none := by
      simp [Atom_clear, hcm]
    simp [Atom_traverse, hnone]

/-- Witness for C7 at a two-member class with one populated slot. -/
theorem C7_witness :
    atomC7.class_map = some cmC7 ∧
    atomC7.slots.length = ClassMap_MemberCount cmC7 ∧
    (Atom_traverse atomC7 =
        ((atomC7.slots.filterMap id).map Ref.value) ++ [Ref.schema cmC7] ∧
     Atom_traverse (Atom_clear atomC7).1 = []) :=
  ⟨rfl, rfl, C7_traverse_exactly_present_slots_plus_schema atomC7 cmC7 rfl rfl⟩

/-- Per-claim fixture for C8: two members, slots holding `obj 4` and `obj 6`. -/
def memberC8 : Member := ⟨none, none, none, none⟩

def cmC8 : ClassMap := ⟨[("a", memberC8), ("b", memberC8)]⟩

def atomC8 : Atom := ⟨some cmC8, [some (Value.obj 4), some (Value.obj 6)]⟩

/-- C8: clear releases and empties every slot in increasing index order and only
afterwards releases and empties the schema reference (the release trace is the
present slot values in index order followed by the schema reference, which comes
last); afterwards every slot is absent and the schema reference is empty. -/
theorem C8_clear_slots_first_schema_last
    (a : Atom) (cm : ClassMap)
    (hcm : a.class_map = some cm)
    (hlen : a.slots.length = ClassMap_MemberCount cm) :
    Atom_clear a =
      ({ class_map := none, slots := a.slots.map (fun _ => none) },
       ((a.slots.filterMap id).map Ref.value) ++ [Ref.schema cm]) ∧
    (∀ i : Nat, (Atom_clear a).1.slots.getD i none = none) ∧
    (Atom_clear a).1.class_map = none := by
  have h1 : Atom_clear a =
      ({ class_map := none, slots := a.slots.map (fun _ => none) },
       ((a.slots.filterMap id).map Ref.value) ++ [Ref.schema cm]) := by
    simp [Atom_clear, hcm, ← hlen, List.take_length, List.drop_length,
      clearSlots_fst, clearSlots_snd]
  refine ⟨h1, ?_, ?_⟩
  · intro i
    rw [h1]
    exact getD_map_none a.slots i
  · rw [h1]

/-- Witness for C8: both occupants released in index order, then the schema. -/
theorem C8_witness :
    atomC8.class_map = some cmC8 ∧
    atomC8.slots.length = ClassMap_MemberCount cmC8 ∧
    Atom_clear atomC8 =
      ({ class_map := none, slots := atomC8.slots.map (fun _ => none) },
       ((atomC8.slots.filterMap id).map Ref.value) ++ [Ref.schema cmC8]) ∧
    (Atom_clear atomC8).1.class_map = none :=
  ⟨rfl, rfl,
   (C8_clear_slots_first_schema_last atomC8 cmC8 rfl rfl).1,
   (C8_clear_slots_first_schema_last atomC8 cmC8 rfl rfl).2.2⟩

theorem do_validate_events_old (m : Member) (nm nm' : String) (o c old cand : Value)
    (h : Event.evValidate nm' old cand ∈ (do_validate m nm o c).2 ∨
         Event.evPostValidate nm' old cand ∈ (do_validate m nm o c).2) :
    old = o := by
  unfold do_validate at h
  repeat' split at h
  all_goals rcases h with h | h <;> simp_all

/-- Per-claim fixture for C9: no default handler; the validate handler returns its
candidate, exposing what the pipeline fed it. -/
def memberC9 : Member := ⟨none, some (fun _ cand => some cand), none, none⟩

/-- C9 counterexample: for a member with no default handler, the validate stage is
invoked with candidate `Py_None` and old value `NullObject`; these are two distinct
sentinels, so the candidate is not the canonical no-value placeholder that the
validate stage receives as the old value. -/
theorem C9_counterexample :
    (do_default memberC9 "x").2 =
      [Event.evValidate "x" Value.nullObject Value.pyNone] ∧
    (do_default memberC9 "x").1 = some Value.pyNone ∧
    Value.pyNone ≠ Value.nullObject :=
  ⟨rfl, rfl, by decide⟩

/-- C9 (amended): when no default handler exists the candidate value is the
language's `None` singleton, not the canonical no-value placeholder; in every
default production the validate stages receive the canonical no-value placeholder
(`NullObject`) as the old value; the two sentinels are distinct. -/
theorem C9_amended_candidate_is_none_old_is_placeholder
    (member : Member) (name : String)
    (hnd : member.default_handler = none) :
    do_default member name = do_validate member name Value.nullObject Value.pyNone ∧
    Value.pyNone ≠ Value.nullObject ∧
    (∀ (m : Member) (nm : String) (old cand : Value),
        (Event.evValidate nm old cand ∈ (do_default m nm).2 ∨
         Event.evPostValidate nm old cand ∈ (do_default m nm).2) →
        old = Value.nullObject) := by
  refine ⟨by simp [do_default, hnd], by decide, ?_⟩
  intro m nm old cand h
  rcases hd : m.default_handler with _ | _ | v
  · rw [show do_default m nm = do_validate m nm Value.nullObject Value.pyNone from
      by simp [do_default, hd]] at h
    exact do_validate_events_old m nm nm Value.nullObject Value.pyNone old cand h
  · have h2 : (do_default m nm).2 = [Event.evDefault nm] := by simp [do_default, hd]
    rw [h2] at h
    rcases h with h | h <;> simp at h
  · have h2 : (do_default m nm).2 =
        Event.evDefault nm :: (do_validate m nm Value.nullObject v).2 := by
      simp [do_default, hd]
    rw [h2] at h
    rcases h with h | h
    · simp at h
      exact do_validate_events_old m nm nm Value.nullObject v old cand (Or.inl h)
    · simp at h
      exact do_validate_events_old m nm nm Value.nullObject v old cand (Or.inr h)

/-- Witness for C9 (amended) at a member with no default handler. -/
theorem C9_witness :
    memberC9.default_handler = none ∧
    do_default memberC9 "x" = do_validate memberC9 "x" Value.nullObject Value.pyNone ∧
    Value.pyNone ≠ Value.nullObject :=
  ⟨rfl,
   (C9_amended_candidate_is_none_old_is_placeholder memberC9 "x" rfl).1,
   (C9_amended_candidate_is_none_old_is_placeholder memberC9 "x" rfl).2.1⟩

/-- Per-claim fixture for C10: occupied slot; default handler would produce
`obj 7`. -/
def memberC10 : Member := ⟨some (some (Value.obj 7)), none, none, none⟩

def cmC10 : ClassMap := ⟨[("a", memberC10)]⟩

def atomC10 : Atom := ⟨some cmC10, [some (Value.obj 5)]⟩

/-- C10: deleting a schema-backed attribute (a set with no value) always succeeds
and resets the slot to absent; a subsequent read re-triggers default production and
returns its result instead of failing with a missing-attribute error. -/
theorem C10_delete_resets_slot_and_read_redefaults
    (gs : String → Option Value → Bool) (a : Atom) (cm : ClassMap) (name : String)
    (member : Member) (index : Nat) (v : Value) (evs : List Event)
    (hcm : a.class_map = some cm)
    (hlook : ClassMap_LookupMember cm name = some (member, index))
    (hlen : index < a.slots.length)
    (hdef : do_default member name = (some v, evs)) :
    (Atom_setattro gs a name none).outcome = SetOutcome.ok ∧
    (Atom_setattro gs a name none).atom.slots.getD index none = none ∧
    Atom_getattro (Atom_setattro gs a name none).atom name =
      (GetResult.value v,
       { (Atom_setattro gs a name none).atom with
           slots := (Atom_setattro gs a name none).atom.slots.set index (some v) },
       evs) := by
  have he : Atom_setattro gs a name none =
      { outcome := SetOutcome.ok,
        atom := { a with slots := a.slots.set index none },
        released := [], events := [] } := by
    simp [Atom_setattro, hcm, hlook]
  have habs := getD_set_self a.slots index none hlen
  have habs' := habs
  simp only [List.getD_eq_getElem?_getD] at habs'
  refine ⟨by rw [he], ?_, ?_⟩
  · rw [he]
    exact habs
  · rw [he]
    simp [Atom_getattro, hcm, hlook, habs', hdef]

/-- Witness for C10: deleting the occupied slot, then reading, yields the freshly
produced default `obj 7` rather than the deleted `obj 5` or an error. -/
theorem C10_witness :
    do_default memberC10 "a" = (some (Value.obj 7), [Event.evDefault "a"]) ∧
    (Atom_setattro gsC5 atomC10 "a" none).outcome = SetOutcome.ok ∧
    (Atom_setattro gsC5 atomC10 "a" none).atom.slots.getD 0 none = none ∧
    Atom_getattro (Atom_setattro gsC5 atomC10 "a" none).atom "a" =
      (GetResult.value (Value.obj 7),
       { (Atom_setattro gsC5 atomC10 "a" none).atom with
           slots := (Atom_setattro gsC5 atomC10 "a" none).atom.slots.set 0
             (some (Value.obj 7)) },
       [Event.evDefault "a"]) :=
  ⟨rfl,
   (C10_delete_resets_slot_and_read_redefaults gsC5 atomC10 cmC10 "a" memberC10 0
      (Value.obj 7) [Event.evDefault "a"] rfl rfl Nat.zero_lt_one rfl).1,
   (C10_delete_resets_slot_and_read_redefaults gsC5 atomC10 cmC10 "a" memberC10 0
      (Value.obj 7) [Event.evDefault "a"] rfl rfl Nat.zero_lt_one rfl).2.1,
   (C10_delete_resets_slot_and_read_redefaults gsC5 atomC10 cmC10 "a" memberC10 0
      (Value.obj 7) [Event.evDefault "a"] rfl rfl Nat.zero_lt_one rfl).2.2⟩

end AtomModel
